import Mathlib

/-!
Verification development for the host-side compositor supervisor
(`startCompositor` and its helpers): the incremental stdout frame parser,
the waiter registry, frame dispatch, the tri-state lifecycle, and the
public gateway operations.  All definitions below are shallow embeddings
of the TypeScript source; byte buffers are modelled as `List Nat` of byte
values and JavaScript strings built with `String.fromCharCode` are
modelled as the list of their character codes (the source only ever
builds them from single bytes).
-/

/-- Byte buffers (`Buffer`) and JS strings of char codes. -/
abbrev Bytes := List Nat

/-- The frame marker `remotion_buffer:` (ASCII), the source's `separator`. -/
def marker : Bytes :=
  [114, 101, 109, 111, 116, 105, 111, 110, 95, 98, 117, 102, 102, 101, 114, 58]

/-- Whether `pat` occurs at the head of `l` (byte-wise). -/
def beginsWith : Bytes → Bytes → Bool
  | [], _ => true
  | _ :: _, [] => false
  | a :: as, b :: bs => a == b && beginsWith as bs

/-- Models `Buffer.prototype.indexOf(separator)` followed by taking the bytes
after the first occurrence of the marker: returns `some (before, after)`
splitting the buffer around the first occurrence of `marker`, or `none`
when the marker does not occur (JS `indexOf` returning `-1`). -/
def splitOnMarker : Bytes → Option (Bytes × Bytes)
  | [] => none
  | b :: rest =>
    if beginsWith marker (b :: rest) then some ([], (b :: rest).drop marker.length)
    else (splitOnMarker rest).map (fun pr => (b :: pr.1, pr.2))

/-- Models one of the three header-scanning `while (true)` loops of
`processInput`: bytes are consumed until a colon (0x3a) is found; the colon
is consumed (for the third loop the source leaves `separatorIndex` on the
colon but then reads the payload from `separatorIndex + 1`, which is the
same as consuming it).  `none` models the loop running past the end of the
buffer: in JS, `outputBuffer[i]` is `undefined` there, which never equals
0x3a, so the loop (and hence `processInput`) never terminates. -/
def scanField : Bytes → Option (Bytes × Bytes)
  | [] => none
  | b :: rest =>
    if b == 58 then some ([], rest)
    else (scanField rest).map (fun pr => (b :: pr.1, pr.2))

def isDigitByte (b : Nat) : Bool := 48 ≤ b && b ≤ 57

/-- Models JS `Number(s)` on the colon-free field strings scanned by
`processInput`, restricted to the shapes the claims exercise: a possibly
empty run of ASCII digits parses to its decimal value (`Number("") = 0`),
anything else is `NaN`, modelled as `none`.  (JS `Number` accepts further
exotic forms such as `"1e3"` or `"0x1f"`; those never occur in the wire
format nor in any claim and are outside the model.) -/
def jsNumber (l : Bytes) : Option Nat :=
  if l.all isDigitByte then some (l.foldl (fun a b => a * 10 + (b - 48)) 0) else none

/-- Canonical decimal rendering of a length, as the child writes it. -/
def natToDigitBytes (n : Nat) : Bytes :=
  if n = 0 then [48] else (Nat.digits 10 n).reverse.map (· + 48)

/-- A complete parsed frame as passed to `onMessage`:
`isError` is `Number(statusString) === 1`, `nonce` the scanned nonce
string, `data` the payload slice. -/
structure Frame where
  isError : Bool
  nonce : Bytes
  data : Bytes
  deriving DecidableEq

/-- Fuelled body of `processInput`.  Each self-call consumes one unit of
fuel and at least 19 bytes of buffer (marker, three colons and the
payload), so with `buf.length + 1` fuel the fuel is never exhausted; the
only `none` results are the genuinely non-terminating runs of the JS
function: a header-scanning loop running past the end of the buffer, or a
`NaN` length, for which the source slices with `NaN` bounds and re-invokes
itself on an unchanged buffer, re-emitting the same header forever
(in practice overflowing the stack).  `onMessage` calls made before such a
divergence are not captured by a `none` result.
Returns `(frames emitted, new outputBuffer, new missingData)`. -/
def processInputF : Nat → Bytes → Option Int → Option (List Frame × Bytes × Option Int)
  | 0, _, _ => none
  | fuel + 1, buf, missing =>
    match splitOnMarker buf with
    | none => some ([], buf, missing)
    | some (_, rest) =>
      match scanField rest with
      | none => none
      | some (nonceB, r1) =>
        match scanField r1 with
        | none => none
        | some (lenB, r2) =>
          match scanField r2 with
          | none => none
          | some (statusB, r3) =>
            match jsNumber lenB with
            | none => none
            | some len =>
              if r3.length < len then
                some ([], buf, some ((len : Int) - (r3.length : Int)))
              else
                match processInputF fuel (r3.drop len) none with
                | none => none
                | some (frames, buf2, m2) =>
                  some (⟨jsNumber statusB == some 1, nonceB, r3.take len⟩ :: frames, buf2, m2)

/-- The source's `processInput`, acting on the current `outputBuffer` and
`missingData`.  See `processInputF` for the reading of `none`. -/
def processInput (buf : Bytes) (missing : Option Int) :
    Option (List Frame × Bytes × Option Int) :=
  processInputF (buf.length + 1) buf missing

/-- Parser-side mutable state of the stream handler: `outputBuffer`,
`unprocessedBuffers` and `missingData`. -/
structure StreamState where
  outputBuffer : Bytes
  unprocessed : List Bytes
  missing : Option Int
  deriving DecidableEq

def initStream : StreamState := ⟨[], [], none⟩

/-- Models `!missingData || missingData.dataMissing > 0` (after the
in-place decrement), i.e. "keep buffering and return". -/
def bufferMore : Option Int → Bool
  | none => true
  | some m => decide (0 < m)

/-- The `child.stdout.on('data')` handler: push the chunk onto
`unprocessedBuffers`; if the chunk does not itself contain the marker,
decrement `missingData` by the chunk length and return unless a pending
frame just became complete; otherwise concatenate everything into
`outputBuffer` and run `processInput`. -/
def onDataChunk (ps : StreamState) (chunk : Bytes) : Option (List Frame × StreamState) :=
  let ub := ps.unprocessed ++ [chunk]
  let noMark := (splitOnMarker chunk).isNone
  let missing1 := if noMark then ps.missing.map (fun m => m - (chunk.length : Int)) else ps.missing
  if noMark && bufferMore missing1 then
    some ([], ⟨ps.outputBuffer, ub, missing1⟩)
  else
    match processInput (ps.outputBuffer ++ ub.flatten) missing1 with
    | none => none
    | some (frames, buf2, m2) => some (frames, ⟨buf2, [], m2⟩)

/-! ## JSON error payload

`onMessage` runs `JSON.parse(data.toString('utf8'))` on error payloads,
reads the fields `error` and `backtrace` of the result inside a `try`
block, and falls back to the raw payload when the block throws.  The
model below is a full executable JSON parser producing a `Json` value
(objects, arrays, strings with the standard and `\u` escapes, numbers,
booleans, null), so that a failed parse coincides with `JSON.parse`
throwing.  Payload bytes are taken as ASCII; bytes at or above 0x80
inside strings are carried through as opaque character units (the source
first decodes UTF-8, so the accepted/rejected classification agrees and
only the decoded text of non-ASCII content is outside the model).
Duplicate object keys resolve last-wins as in JS, and member access on
any non-null value is total (`none`, i.e. JS `undefined`, for absent
members and for non-object values), matching JS property access, which
throws only on `null`/`undefined`. -/

def jsonWs (b : Nat) : Bool := b == 32 || b == 9 || b == 10 || b == 13

def skipWs (l : Bytes) : Bytes := l.dropWhile jsonWs

/-- Single-character JSON string escapes. -/
def escMap (c : Nat) : Option Nat :=
  if c == 34 then some 34
  else if c == 92 then some 92
  else if c == 47 then some 47
  else if c == 98 then some 8
  else if c == 102 then some 12
  else if c == 110 then some 10
  else if c == 114 then some 13
  else if c == 116 then some 9
  else none

/-- Hex digit value, for `\u` escapes. -/
def hexVal (c : Nat) : Option Nat :=
  if 48 ≤ c && c ≤ 57 then some (c - 48)
  else if 97 ≤ c && c ≤ 102 then some (c - 87)
  else if 65 ≤ c && c ≤ 70 then some (c - 55)
  else none

/-- Value of a `\uXXXX` escape: the UTF-16 code unit. -/
def hexQuad (h1 h2 h3 h4 : Nat) : Option Nat :=
  match hexVal h1, hexVal h2, hexVal h3, hexVal h4 with
  | some a, some b, some c, some d => some (((a * 16 + b) * 16 + c) * 16 + d)
  | _, _, _, _ => none

/-- Parse the body of a JSON string after the opening quote; returns the
unescaped content (as character units: ASCII bytes, pass-through bytes at
or above 0x80, and `\u` code-unit values) and the remainder after the
closing quote.  `none` is exactly the string bodies `JSON.parse`
rejects: unterminated, raw control characters, invalid or truncated
escapes. -/
def parseStringBody : Bytes → Option (Bytes × Bytes)
  | [] => none
  | 34 :: rest => some ([], rest)
  | 92 :: 117 :: h1 :: h2 :: h3 :: h4 :: rest2 =>
    match hexQuad h1 h2 h3 h4 with
    | none => none
    | some u => (parseStringBody rest2).map (fun pr => (u :: pr.1, pr.2))
  | 92 :: [] => none
  | 92 :: c :: rest2 =>
    match escMap c with
    | none => none
    | some d => (parseStringBody rest2).map (fun pr => (d :: pr.1, pr.2))
  | b :: rest =>
    if b < 32 then none
    else (parseStringBody rest).map (fun pr => (b :: pr.1, pr.2))

/-- Split a leading run of ASCII digits. -/
def spanDigits (l : Bytes) : Bytes × Bytes := (l.takeWhile isDigitByte, l.dropWhile isDigitByte)

/-- Optional fraction part `.digits` of a JSON number literal. -/
def parseFrac : Bytes → Option (Bytes × Bytes)
  | 46 :: r =>
    match spanDigits r with
    | ([], _) => none
    | (ds, r2) => some (46 :: ds, r2)
  | l => some ([], l)

/-- Optional exponent part `eE [+-]? digits` of a JSON number literal. -/
def parseExp : Bytes → Option (Bytes × Bytes)
  | e :: r =>
    if e == 101 || e == 69 then
      match r with
      | 43 :: r1 =>
        match spanDigits r1 with
        | ([], _) => none
        | (ds, r2) => some (e :: 43 :: ds, r2)
      | 45 :: r1 =>
        match spanDigits r1 with
        | ([], _) => none
        | (ds, r2) => some (e :: 45 :: ds, r2)
      | _ =>
        match spanDigits r with
        | ([], _) => none
        | (ds, r2) => some (e :: ds, r2)
    else some ([], e :: r)
  | [] => some ([], [])

/-- Fraction and exponent after the integer part of a number literal. -/
def parseNumTail (pre : Bytes) (rest : Bytes) : Option (Bytes × Bytes) :=
  match parseFrac rest with
  | none => none
  | some (fr, r2) =>
    match parseExp r2 with
    | none => none
    | some (ex, r3) => some (pre ++ fr ++ ex, r3)

/-- Unsigned part of a JSON number literal: `0` or a nonzero digit run,
then optional fraction and exponent. -/
def parseNumberCore : Bytes → Option (Bytes × Bytes)
  | [] => none
  | 48 :: r => parseNumTail [48] r
  | b :: r =>
    if 49 ≤ b && b ≤ 57 then
      parseNumTail (b :: (spanDigits r).1) (spanDigits r).2
    else none

/-- A JSON number literal, with optional leading minus; returns the
literal's bytes and the remainder.  Shapes `JSON.parse` rejects (leading
zeros, bare minus, empty fraction or exponent) return `none`. -/
def parseNumber : Bytes → Option (Bytes × Bytes)
  | 45 :: l1 => (parseNumberCore l1).map (fun pr => (45 :: pr.1, pr.2))
  | l => parseNumberCore l

/-- A parsed JSON value.  Number values keep their literal bytes and
string content is the unit list from `parseStringBody`: the source
interpolates accessed values into the error message with the template
literal (JS string conversion); the model carries the values themselves,
so two literals JS renders identically (such as `5` and `5.0`) stay
distinguishable here — a strictly finer record of the same branch. -/
inductive Json where
  | null
  | boolean (b : Bool)
  | num (lit : Bytes)
  | str (units : List Nat)
  | arr (elems : List Json)
  | obj (members : List (List Nat × Json))

mutual
/-- Parse one JSON value after optional whitespace, fuelled.  Along any
chain of recursive calls at least one input byte (a brace, bracket,
comma, or a member key's opening quote) is consumed for every two fuel
decrements, so the `2 * length + 2` fuel supplied by `parseJsonTop`
cannot run out; `none` from these functions means the input is not JSON
that `JSON.parse` accepts. -/
def parseValue : Nat → Bytes → Option (Json × Bytes)
  | 0, _ => none
  | fuel + 1, l =>
    match skipWs l with
    | 123 :: r =>
      match skipWs r with
      | 125 :: r2 => some (.obj [], r2)
      | _ => (parseMembersJ fuel r).map (fun pr => (.obj pr.1, pr.2))
    | 91 :: r =>
      match skipWs r with
      | 93 :: r2 => some (.arr [], r2)
      | _ => (parseElements fuel r).map (fun pr => (.arr pr.1, pr.2))
    | 34 :: r => (parseStringBody r).map (fun pr => (.str pr.1, pr.2))
    | 116 :: 114 :: 117 :: 101 :: r => some (.boolean true, r)
    | 102 :: 97 :: 108 :: 115 :: 101 :: r => some (.boolean false, r)
    | 110 :: 117 :: 108 :: 108 :: r => some (.null, r)
    | l2 => (parseNumber l2).map (fun pr => (.num pr.1, pr.2))

/-- Parse the elements of a non-empty array body (after the `[`). -/
def parseElements : Nat → Bytes → Option (List Json × Bytes)
  | 0, _ => none
  | fuel + 1, l =>
    match parseValue fuel l with
    | none => none
    | some (v, r) =>
      match skipWs r with
      | 44 :: r2 => (parseElements fuel r2).map (fun pr => (v :: pr.1, pr.2))
      | 93 :: r2 => some ([v], r2)
      | _ => none

/-- Parse the members of a non-empty object body (after the `\x7b`). -/
def parseMembersJ : Nat → Bytes → Option (List (List Nat × Json) × Bytes)
  | 0, _ => none
  | fuel + 1, l =>
    match skipWs l with
    | 34 :: r1 =>
      match parseStringBody r1 with
      | none => none
      | some (k, r2) =>
        match skipWs r2 with
        | 58 :: r3 =>
          match parseValue fuel r3 with
          | none => none
          | some (v, r4) =>
            match skipWs r4 with
            | 44 :: r5 => (parseMembersJ fuel r5).map (fun pr => ((k, v) :: pr.1, pr.2))
            | 125 :: r5 => some ([(k, v)], r5)
            | _ => none
        | _ => none
    | _ => none
end

/-- `JSON.parse` on the whole payload: one value followed by only
whitespace; `none` exactly when `JSON.parse` throws (for ASCII payloads,
see the section comment). -/
def parseJsonTop (l : Bytes) : Option Json :=
  match parseValue (2 * l.length + 2) l with
  | none => none
  | some (v, r) => if (skipWs r).isEmpty then some v else none

/-- JS object member access with duplicate keys resolved last-wins. -/
def fieldLast : List (List Nat × Json) → List Nat → Option Json
  | [], _ => none
  | kv :: rest, k =>
    match fieldLast rest k with
    | some v => some v
    | none => if kv.1 == k then some kv.2 else none

/-- ASCII `error`. -/
def keyError : Bytes := [101, 114, 114, 111, 114]

/-- ASCII `backtrace`. -/
def keyBacktrace : Bytes := [98, 97, 99, 107, 116, 114, 97, 99, 101]

/-- JS property access `v.error` / `v.backtrace` on a non-null parsed
value: a member of an object, `none` (JS `undefined`) for absent members
and for every non-object value — property access on numbers, strings,
booleans and arrays yields `undefined` without throwing. -/
def jsField : Json → List Nat → Option Json
  | .obj ms, k => fieldLast ms k
  | _, _ => none

/-- The `try` block of `onMessage`'s error branch: `JSON.parse` the
payload and read the two fields.  `some (e?, b?)` is the block completing
with the two accessed values (`none` components are JS `undefined`,
rendered `undefined` by the template literal); the overall `none` is the
block throwing — `JSON.parse` failing, or field access on the parsed
value `null`. -/
def parseJsonErrorObject (data : Bytes) : Option (Option Json × Option Json) :=
  match parseJsonTop data with
  | none => none
  | some .null => none
  | some v => some (jsField v keyError, jsField v keyBacktrace)

/-! ## Waiter registry, lifecycle, dispatch and gateway -/

/-- The source's `RunningStatus` tagged union; the `error` field holds
`Buffer.concat(stderrChunks).toString('utf-8')`, modelled as the raw
stderr bytes. -/
inductive RunningStatus
  | running
  | quitWithError (error : Bytes)
  | quitWithoutError
  deriving DecidableEq

/-- What a waiter's `reject` is called with.  Constructors record the
exact message shapes of the source:
`compositorError e b` is
`new Error('Compositor error: ' + e + '\n' + b)`, carrying the two
accessed JSON values (a `none` component is JS `undefined`; the template
literal renders a string value as its text and `undefined` as the word
`undefined`);
`rawPayload d` is `new Error(data.toString('utf8'))`;
`alreadyQuit` is `new Error('Compositor already quit')`;
`alreadyQuitWithError s` is `new Error('Compositor already quit: ' + s)`;
`panicked s` is `new Error('Compositor panicked: ' + s)`. -/
inductive RejectReason
  | compositorError (error backtrace : Option Json)
  | rawPayload (data : Bytes)
  | alreadyQuit
  | alreadyQuitWithError (stderr : Bytes)
  | panicked (stderr : Bytes)

/-- Observable completions: resolutions/rejections of `executeCommand`
waiters (identified by a waiter id standing for the promise callbacks),
the single `waitForDone` handle, and verbose log lines tagged
`compositor`. -/
inductive Delivery
  | resolved (wid : Nat) (data : Bytes)
  | rejected (wid : Nat) (reason : RejectReason)
  | logged (data : Bytes)
  | resolvedDone (wid : Nat)
  | rejectedDone (wid : Nat) (reason : RejectReason)

/-- Whole supervisor state: the `waiters` map (insertion-ordered
association list of nonce to waiter id), `runningStatus`, the
accumulated stderr bytes, and the `resolve`/`reject` pair installed by
`waitForDone` (modelled by the id of the promise they settle). -/
structure SysState where
  waiters : List (Bytes × Nat)
  status : RunningStatus
  stderrBuf : Bytes
  doneWaiter : Option Nat
  deriving DecidableEq

def initState : SysState := ⟨[], .running, [], none⟩

/-- `waiters.get` / `waiters.has` on the association list. -/
def lookupWaiter : List (Bytes × Nat) → Bytes → Option Nat
  | [], _ => none
  | (k, w) :: rest, n => if k = n then some w else lookupWaiter rest n

/-- `waiters.delete n`. -/
def eraseWaiter (l : List (Bytes × Nat)) (n : Bytes) : List (Bytes × Nat) :=
  l.filter (fun e => decide (¬ e.1 = n))

/-- `waiters.set n w` (nonces are unique at insertion time, so position
within the list is immaterial to every claim). -/
def insertWaiter (l : List (Bytes × Nat)) (n : Bytes) (w : Nat) : List (Bytes × Nat) :=
  eraseWaiter l n ++ [(n, w)]

/-- The source's `onMessage`: log frames whose nonce is the string `"0"`
(ASCII `[48]`), then settle and remove the waiter registered under the
nonce, if any. -/
def onMessage (st : SysState) (isError : Bool) (nonce data : Bytes) :
    SysState × List Delivery :=
  let logs := if nonce = [48] then [Delivery.logged data] else []
  match lookupWaiter st.waiters nonce with
  | none => (st, logs)
  | some wid =>
    let d :=
      if isError then
        match parseJsonErrorObject data with
        | some (e, b) => Delivery.rejected wid (.compositorError e b)
        | none => Delivery.rejected wid (.rawPayload data)
      else Delivery.resolved wid data
    ({st with waiters := eraseWaiter st.waiters nonce}, logs ++ [d])

/-- Synchronous outcome of `executeCommand`: either the request was
written and a waiter inserted, or the call threw
`'Compositor already quit'` resp. `'Compositor quit: ' + stderr`. -/
inductive ExecOutcome
  | inserted
  | failedAlreadyQuit
  | failedQuitWithError (stderr : Bytes)
  deriving DecidableEq

/-- The gateway's `executeCommand`; the fresh nonce from `makeNonce` and
the promise callbacks are supplied as parameters (`nonce`, `wid`), the
stdin write is outside the model. -/
def executeCommand (st : SysState) (nonce : Bytes) (wid : Nat) : ExecOutcome × SysState :=
  match st.status with
  | .quitWithoutError => (.failedAlreadyQuit, st)
  | .quitWithError e => (.failedQuitWithError e, st)
  | .running => (.inserted, {st with waiters := insertWaiter st.waiters nonce wid})

/-- The gateway's `waitForDone`: after a quit it immediately rejects the
fresh promise; while running it installs (overwrites) the stored
`resolve`/`reject` pair. -/
def waitForDone (st : SysState) (wid : Nat) : SysState × List Delivery :=
  match st.status with
  | .quitWithoutError => (st, [.rejectedDone wid .alreadyQuit])
  | .quitWithError e => (st, [.rejectedDone wid (.alreadyQuitWithError e)])
  | .running => ({st with doneWaiter := some wid}, [])

/-- The `child.on('close')` handler.  A `null` exit code (signal kill)
behaves like any non-zero code; `code` is therefore a plain `Nat` here. -/
def onClose (st : SysState) (code : Nat) : SysState × List Delivery :=
  if code = 0 then
    ({st with status := .quitWithoutError, waiters := []},
      (match st.doneWaiter with | some w => [Delivery.resolvedDone w] | none => [])
        ++ st.waiters.map (fun e => Delivery.rejected e.2 .alreadyQuit))
  else
    ({st with status := .quitWithError st.stderrBuf, waiters := []},
      st.waiters.map (fun e => Delivery.rejected e.2 (.panicked st.stderrBuf))
        ++ (match st.doneWaiter with | some w => [Delivery.rejectedDone w (.panicked st.stderrBuf)] | none => []))

/-! ## Event traces -/

/-- External events driving the supervisor: an `executeCommand` call (with
the nonce chosen by `makeNonce` and the caller's promise id), a complete
frame delivered by the parser, the child's `close`, a stderr chunk, and a
`waitForDone` call. -/
inductive Event
  | exec (nonce : Bytes) (wid : Nat)
  | frame (isError : Bool) (nonce : Bytes) (data : Bytes)
  | closed (code : Nat)
  | stderrData (chunk : Bytes)
  | doneCall (wid : Nat)
  deriving DecidableEq

def Event.isClosed : Event → Bool
  | .closed _ => true
  | _ => false

/-- One event's effect on the supervisor state. -/
def step (st : SysState) : Event → SysState × List Delivery
  | .exec n w => ((executeCommand st n w).2, [])
  | .frame er n d => onMessage st er n d
  | .closed c => onClose st c
  | .stderrData c => ({st with stderrBuf := st.stderrBuf ++ c}, [])
  | .doneCall w => waitForDone st w

/-- Run a list of events, accumulating all deliveries in order. -/
def run (st : SysState) : List Event → SysState × List Delivery
  | [] => (st, [])
  | e :: es =>
    let p := step st e
    let q := run p.1 es
    (q.1, p.2 ++ q.2)

/-! ## Parser-to-dispatch composition -/

/-- Dispatch a list of parsed frames through `onMessage` in order. -/
def dispatchFrames (sys : SysState) : List Frame → SysState × List Delivery
  | [] => (sys, [])
  | f :: fs =>
    let p := onMessage sys f.isError f.nonce f.data
    let q := dispatchFrames p.1 fs
    (q.1, p.2 ++ q.2)

/-- One stdout `data` event end to end: parse, then dispatch every
complete frame (the source interleaves the `onMessage` calls with the
parsing recursion; dispatch does not feed back into the parser, so the
two orders agree). -/
def onStdoutData (sys : SysState) (ps : StreamState) (chunk : Bytes) :
    Option (SysState × StreamState × List Delivery) :=
  match onDataChunk ps chunk with
  | none => none
  | some (frames, ps2) =>
    let p := dispatchFrames sys frames
    some (p.1, ps2, p.2)

/-- A sequence of stdout `data` events. -/
def runStdout (sys : SysState) (ps : StreamState) :
    List Bytes → Option (SysState × StreamState × List Delivery)
  | [] => some (sys, ps, [])
  | c :: cs =>
    match onStdoutData sys ps c with
    | none => none
    | some (sys2, ps2, ds) =>
      match runStdout sys2 ps2 cs with
      | none => none
      | some (sys3, ps3, ds2) => some (sys3, ps3, ds ++ ds2)

/-! ## Derived inputs and counters used by the properties -/

/-- A well-formed success frame for nonce `nonce` carrying payload `P`:
`remotion_buffer:<nonce>:<len>:0:<P>` with the length rendered in
canonical decimal. -/
def mkSuccessFrame (nonce P : Bytes) : Bytes :=
  marker ++ nonce ++ 58 :: natToDigitBytes P.length ++ 58 :: 48 :: 58 :: P

/-- String content representable without escapes in a JSON string literal
(printable, no quote, no backslash); the canonical serialized form of the
child's `ErrorPayload` uses such content. -/
@[reducible] def plainStr (s : Bytes) : Prop :=
  ∀ c ∈ s, 32 ≤ c ∧ c ≤ 126 ∧ c ≠ 34 ∧ c ≠ 92

/-- The canonical serialized `ErrorPayload`
`\x7b"error":"<e>","backtrace":"<b>"\x7d`. -/
def jsonErrorPayload (e b : Bytes) : Bytes :=
  [123, 34] ++ keyError ++ [34, 58, 34] ++ e ++ [34, 44, 34] ++ keyBacktrace
    ++ [34, 58, 34] ++ b ++ [34, 125]

/-- Is this delivery a resolution or rejection of registry waiter `wid`? -/
def delivTo (wid : Nat) : Delivery → Bool
  | .resolved w _ => decide (w = wid)
  | .rejected w _ => decide (w = wid)
  | _ => false

/-- Is this delivery a settlement of the done-waiter `wid`? -/
def doneDelivTo (wid : Nat) : Delivery → Bool
  | .resolvedDone w => decide (w = wid)
  | .rejectedDone w _ => decide (w = wid)
  | _ => false

/-- Does this event insert a waiter with id `wid`? -/
def execFor (wid : Nat) : Event → Bool
  | .exec _ w => decide (w = wid)
  | _ => false

/-- Count deliveries satisfying a predicate. -/
def countIf : (Delivery → Bool) → List Delivery → Nat
  | _, [] => 0
  | p, d :: rest => (if p d then 1 else 0) + countIf p rest

/-- Count `exec` events for waiter id `wid`. -/
def execCount : List Event → Nat → Nat
  | [], _ => 0
  | e :: rest, wid => (if execFor wid e then 1 else 0) + execCount rest wid

/-- Count registry entries holding waiter id `wid`. -/
def regCount : List (Bytes × Nat) → Nat → Nat
  | [], _ => 0
  | en :: rest, wid => (if en.2 = wid then 1 else 0) + regCount rest wid

/-- The stdout chunk `remotion_buf` (first half of a split marker). -/
def chunkMarkerHead : Bytes := [114, 101, 109, 111, 116, 105, 111, 110, 95, 98, 117, 102]

/-- The stdout chunk `fer:abc:3:0:foo` (second half of a split marker). -/
def chunkMarkerTail : Bytes := [102, 101, 114, 58, 97, 98, 99, 58, 51, 58, 48, 58, 102, 111, 111]


/-! ## Parser lemmas -/

theorem beginsWith_cat (p r : Bytes) : beginsWith p (p ++ r) = true := by
  induction p with
  | nil => rfl
  | cons a as ih => simp [beginsWith, ih]

theorem splitOnMarker_cat (r : Bytes) : splitOnMarker (marker ++ r) = some ([], r) := by
  have hb : beginsWith marker (marker ++ r) = true := beginsWith_cat marker r
  rw [show marker ++ r = 114 :: (List.drop 1 marker ++ r) from rfl]
  rw [splitOnMarker]
  rw [show (114 : Nat) :: (List.drop 1 marker ++ r) = marker ++ r from rfl, hb]
  simp [List.drop_left]

theorem scanField_cat (f tail : Bytes) (hf : ∀ b ∈ f, b ≠ 58) :
    scanField (f ++ 58 :: tail) = some (f, tail) := by
  induction f with
  | nil => rfl
  | cons b bs ih =>
    have hb : b ≠ 58 := hf b (by simp)
    have hbs : scanField (bs ++ 58 :: tail) = some (bs, tail) :=
      ih (fun c hc => hf c (by simp [hc]))
    simp [scanField, hb, hbs]

theorem foldl_digit_bytes (L : List Nat) :
    (L.reverse.map (· + 48)).foldl (fun a b => a * 10 + (b - 48)) 0 = Nat.ofDigits 10 L := by
  induction L with
  | nil => rfl
  | cons d L ih =>
    simp only [List.reverse_cons, List.map_append, List.foldl_append, ih,
      Nat.ofDigits_cons, List.map_cons, List.map_nil, List.foldl_cons, List.foldl_nil,
      Nat.add_sub_cancel]
    ring

theorem natToDigitBytes_digit (n : Nat) : ∀ b ∈ natToDigitBytes n, isDigitByte b = true := by
  intro b hb
  unfold natToDigitBytes at hb
  by_cases h : n = 0
  · simp [h] at hb
    simp [hb, isDigitByte]
  · rw [if_neg h] at hb
    obtain ⟨d, hd, rfl⟩ := List.mem_map.mp hb
    have : d < 10 := Nat.digits_lt_base (by norm_num) (List.mem_reverse.mp hd)
    simp [isDigitByte]
    omega

theorem natToDigitBytes_ne_colon (n : Nat) : ∀ b ∈ natToDigitBytes n, b ≠ 58 := by
  intro b hb
  have := natToDigitBytes_digit n b hb
  simp [isDigitByte] at this
  omega

theorem jsNumber_natToDigitBytes (n : Nat) : jsNumber (natToDigitBytes n) = some n := by
  by_cases h : n = 0
  · subst h; rfl
  · have hall : (natToDigitBytes n).all isDigitByte = true :=
      List.all_eq_true.mpr (natToDigitBytes_digit n)
    rw [jsNumber, if_pos hall]
    rw [show natToDigitBytes n = (Nat.digits 10 n).reverse.map (· + 48) from if_neg h]
    rw [foldl_digit_bytes, Nat.ofDigits_digits]

theorem processInputF_nil (fuel : Nat) (h : 0 < fuel) (m : Option Int) :
    processInputF fuel [] m = some ([], [], m) := by
  cases fuel with
  | zero => omega
  | succ k => rfl


theorem mkSuccessFrame_length_pos (nonce P : Bytes) : 0 < (mkSuccessFrame nonce P).length := by
  simp [mkSuccessFrame, marker]

theorem processInput_mkSuccessFrame (nonce P : Bytes) (hn : ∀ b ∈ nonce, b ≠ 58) :
    processInput (mkSuccessFrame nonce P) none
      = some ([⟨false, nonce, P⟩], [], none) := by
  have hpos := mkSuccessFrame_length_pos nonce P
  rw [processInput, processInputF]
  rw [show mkSuccessFrame nonce P
      = marker ++ (nonce ++ 58 :: (natToDigitBytes P.length ++ 58 :: 48 :: 58 :: P))
    from by simp [mkSuccessFrame]]
  rw [splitOnMarker_cat]
  simp only
  rw [scanField_cat _ _ hn]
  simp only
  rw [scanField_cat _ _ (natToDigitBytes_ne_colon P.length)]
  simp only
  rw [show (48 : Nat) :: 58 :: P = ([48] ++ 58 :: P : Bytes) from rfl]
  rw [scanField_cat [48] P (by decide)]
  simp only
  rw [jsNumber_natToDigitBytes]
  simp only [lt_irrefl, if_false, List.drop_length, List.take_length]
  rw [processInputF_nil _ (by simp [marker])]
  rfl

/-! ## Claim theorems: parser and payload round-trip -/

/-- C6: for every payload byte sequence `P` (any length, including 0 and
non-UTF-8 bytes) and every colon-free nonce with a registered waiter, a
well-formed success frame carrying `P`, arriving as a stdout chunk at a
quiescent parser, resolves exactly that waiter with exactly the bytes `P`
(no re-encoding, truncation or extension) and removes it from the
registry. -/
theorem C6_success_payload_roundtrip (nonce P : Bytes) (st : SysState) (wid : Nat)
    (hn : ∀ b ∈ nonce, b ≠ 58) (hw : lookupWaiter st.waiters nonce = some wid) :
    onStdoutData st initStream (mkSuccessFrame nonce P)
      = some ({st with waiters := eraseWaiter st.waiters nonce}, initStream,
          (if nonce = [48] then [Delivery.logged P] else []) ++ [.resolved wid P]) := by
  have hsplit : (splitOnMarker (mkSuccessFrame nonce P)).isNone = false := by
    rw [show mkSuccessFrame nonce P
        = marker ++ (nonce ++ 58 :: (natToDigitBytes P.length ++ 58 :: 48 :: 58 :: P))
      from by simp [mkSuccessFrame]]
    rw [splitOnMarker_cat]
    rfl
  simp [onStdoutData, onDataChunk, initStream, hsplit,
    processInput_mkSuccessFrame _ _ hn, dispatchFrames, onMessage, hw]

/-- C1 (failing input): with a waiter registered under nonce `abc`, the
marker arriving split across two chunks (`remotion_buf`, then
`fer:abc:3:0:foo`) leaves both chunks buffered unprocessed, emits no
frame and resolves nothing — neither chunk alone contains the marker and
`missingData` is unset, so the handler returns early both times — whereas
the same bytes in a single chunk resolve waiter 5 with `foo`. -/
theorem C1_split_marker_frame_never_emitted :
    runStdout ⟨[([97, 98, 99], 5)], .running, [], none⟩ initStream
        [chunkMarkerHead, chunkMarkerTail]
      = some (⟨[([97, 98, 99], 5)], .running, [], none⟩,
          ⟨[], [chunkMarkerHead, chunkMarkerTail], none⟩, [])
    ∧ onStdoutData ⟨[([97, 98, 99], 5)], .running, [], none⟩ initStream
        (chunkMarkerHead ++ chunkMarkerTail)
      = some (⟨[], .running, [], none⟩, initStream, [.resolved 5 [102, 111, 111]]) :=
  ⟨rfl, rfl⟩

/-- C3 (failing input): a frame header with the non-numeric length field
`xyz` (`remotion_buffer:abc:xyz:0:`) drives `processInput` into its
non-terminating branch (`Number('xyz')` is `NaN`; the source then slices
with `NaN` bounds and recurses on an unchanged buffer forever); no
`ProtocolViolation` is raised and the lifecycle is never transitioned. -/
theorem C3_malformed_length_diverges :
    processInput (marker ++ [97, 98, 99, 58, 120, 121, 122, 58, 48, 58]) none = none
    ∧ onDataChunk initStream (marker ++ [97, 98, 99, 58, 120, 121, 122, 58, 48, 58]) = none := by
  decide

/-- C4 (failing input): a buffer containing the marker but an incomplete
header (`remotion_buffer:abc`, no colon after the nonce) makes the
nonce-scanning loop read past the end of the buffer: `processInput` never
terminates instead of returning with the bytes kept buffered. -/
theorem C4_incomplete_header_diverges :
    processInput (marker ++ [97, 98, 99]) none = none
    ∧ onDataChunk initStream (marker ++ [97, 98, 99]) = none := by
  decide

/-! ## JSON payload lemmas -/

theorem skipWs_cons (b : Nat) (l : Bytes) (h : jsonWs b = false) : skipWs (b :: l) = b :: l := by
  simp [skipWs, List.dropWhile_cons, h]

theorem parseStringBody_plain (s rest : Bytes) (hs : plainStr s) :
    parseStringBody (s ++ 34 :: rest) = some (s, rest) := by
  induction s with
  | nil => rfl
  | cons c cs ih =>
    obtain ⟨h32, h126, h34, h92⟩ := hs c (by simp)
    have h32n : ¬ (c < 32) := by omega
    have ihc := ih (fun d hd => hs d (by simp [hd]))
    simp [parseStringBody, h34, h92, h32n, ihc]

theorem parseValue_str (fuel : Nat) (s rest : Bytes) (hs : plainStr s) :
    parseValue (fuel + 1) (34 :: (s ++ 34 :: rest)) = some (.str s, rest) := by
  rw [parseValue]
  rw [skipWs_cons _ _ (by decide)]
  simp only
  rw [parseStringBody_plain _ _ hs]
  rfl

theorem parseMembersJ_two (fuel : Nat) (e b : Bytes) (he : plainStr e) (hb : plainStr b)
    (hf : 4 ≤ fuel) :
    parseMembersJ fuel
        (34 :: (keyError ++ 34 :: 58 :: 34 :: (e ++ 34 :: 44 :: 34
          :: (keyBacktrace ++ 34 :: 58 :: 34 :: (b ++ 34 :: [125])))))
      = some ([(keyError, .str e), (keyBacktrace, .str b)], []) := by
  obtain ⟨k, rfl⟩ : ∃ k, fuel = k + 1 + 1 + 1 + 1 := ⟨fuel - 4, by omega⟩
  rw [parseMembersJ]
  rw [skipWs_cons _ _ (by decide)]
  simp only
  rw [parseStringBody_plain _ _ (by decide)]
  simp only
  rw [skipWs_cons _ _ (by decide)]
  simp only
  rw [parseValue_str _ _ _ he]
  simp only
  rw [skipWs_cons _ _ (by decide)]
  simp only
  rw [parseMembersJ]
  rw [skipWs_cons _ _ (by decide)]
  simp only
  rw [parseStringBody_plain _ _ (by decide)]
  simp only
  rw [skipWs_cons _ _ (by decide)]
  simp only
  rw [parseValue_str _ _ _ hb]
  simp only
  rw [skipWs_cons _ _ (by decide)]
  simp only
  rfl

theorem parseValue_payload (fuel : Nat) (e b : Bytes) (he : plainStr e) (hb : plainStr b)
    (hf : 5 ≤ fuel) :
    parseValue fuel
        (123 :: 34 :: (keyError ++ 34 :: 58 :: 34 :: (e ++ 34 :: 44 :: 34
          :: (keyBacktrace ++ 34 :: 58 :: 34 :: (b ++ 34 :: [125])))))
      = some (.obj [(keyError, .str e), (keyBacktrace, .str b)], []) := by
  obtain ⟨k, rfl⟩ : ∃ k, fuel = k + 4 + 1 := ⟨fuel - 5, by omega⟩
  rw [parseValue]
  rw [skipWs_cons _ _ (by decide)]
  simp only
  rw [skipWs_cons _ _ (by decide)]
  simp only
  rw [parseMembersJ_two (k + 4) e b he hb (by omega)]
  rfl

theorem parseJsonTop_payload (e b : Bytes) (he : plainStr e) (hb : plainStr b) :
    parseJsonTop (jsonErrorPayload e b)
      = some (.obj [(keyError, .str e), (keyBacktrace, .str b)]) := by
  have hshape : jsonErrorPayload e b
      = 123 :: 34 :: (keyError ++ 34 :: 58 :: 34 :: (e ++ 34 :: 44 :: 34
          :: (keyBacktrace ++ 34 :: 58 :: 34 :: (b ++ 34 :: [125])))) := by
    simp [jsonErrorPayload, keyError, keyBacktrace]
  rw [parseJsonTop, hshape]
  rw [parseValue_payload _ e b he hb (by simp [keyError, keyBacktrace]; omega)]
  rfl

theorem parseJsonErrorObject_payload (e b : Bytes) (he : plainStr e) (hb : plainStr b) :
    parseJsonErrorObject (jsonErrorPayload e b)
      = some (some (.str e), some (.str b)) := by
  rw [parseJsonErrorObject, parseJsonTop_payload e b he hb]
  rfl

theorem parseJsonErrorObject_of_parse (data : Bytes) (v : Json)
    (hp : parseJsonTop data = some v) (hv : v ≠ .null) :
    parseJsonErrorObject data = some (jsField v keyError, jsField v keyBacktrace) := by
  rw [parseJsonErrorObject, hp]
  cases v with
  | null => exact absurd rfl hv
  | boolean bv => rfl
  | num lv => rfl
  | str sv => rfl
  | arr ev => rfl
  | obj mv => rfl

theorem parseJsonErrorObject_none (data : Bytes)
    (h : parseJsonTop data = none ∨ parseJsonTop data = some .null) :
    parseJsonErrorObject data = none := by
  rcases h with h | h <;> rw [parseJsonErrorObject, h]

/-! ## Claim theorems: frame dispatch -/

/-- C7 counterexample: the payload `\x7b\x7d` (an empty JSON object) is
not "JSON with fields error and backtrace", so per the claim the waiter
should be rejected with the raw payload; instead `JSON.parse` succeeds,
the absent fields read as `undefined`, and the waiter is rejected with
`Compositor error: undefined\nundefined`. -/
theorem C7_error_frame_rejection_cx :
    onMessage ⟨[([97, 98, 99], 5)], .running, [], none⟩ true [97, 98, 99] [123, 125]
      = (⟨[], .running, [], none⟩, [.rejected 5 (.compositorError none none)])
    ∧ Delivery.rejected 5 (.rawPayload [123, 125])
        ∉ (onMessage ⟨[([97, 98, 99], 5)], .running, [], none⟩ true [97, 98, 99] [123, 125]).2 := by
  refine ⟨rfl, ?_⟩
  intro hmem
  rw [show (onMessage ⟨[([97, 98, 99], 5)], .running, [], none⟩ true [97, 98, 99] [123, 125]).2
      = [Delivery.rejected 5 (.compositorError none none)] from rfl] at hmem
  simp at hmem

/-- C7 amended: for an error frame whose nonce has a registered waiter,
(a) any payload that `JSON.parse` accepts as a value other than `null`
rejects the waiter with `Compositor error: <error>\n<backtrace>`, the two
fields being the accessed properties of the parsed value (`undefined`
for absent members and for non-object values); (b) in particular the
canonical serialized payload `\x7b"error":"<e>","backtrace":"<b>"\x7d`
rejects with `Compositor error: <e>\n<b>`; (c) only when the parse
attempt throws — `JSON.parse` fails, or the value is `null`, whose field
access throws — is the waiter rejected with the raw payload as a UTF-8
string. -/
theorem C7_error_frame_rejection_amended :
    (∀ (st : SysState) (nonce : Bytes) (wid : Nat) (data : Bytes) (v : Json),
        lookupWaiter st.waiters nonce = some wid →
        parseJsonTop data = some v → v ≠ .null →
        onMessage st true nonce data
          = ({st with waiters := eraseWaiter st.waiters nonce},
             (if nonce = [48] then [Delivery.logged data] else [])
               ++ [.rejected wid
                    (.compositorError (jsField v keyError) (jsField v keyBacktrace))]))
    ∧ (∀ (st : SysState) (nonce : Bytes) (wid : Nat) (e b : Bytes),
        lookupWaiter st.waiters nonce = some wid → plainStr e → plainStr b →
        onMessage st true nonce (jsonErrorPayload e b)
          = ({st with waiters := eraseWaiter st.waiters nonce},
             (if nonce = [48] then [Delivery.logged (jsonErrorPayload e b)] else [])
               ++ [.rejected wid (.compositorError (some (.str e)) (some (.str b)))]))
    ∧ (∀ (st : SysState) (nonce : Bytes) (wid : Nat) (data : Bytes),
        lookupWaiter st.waiters nonce = some wid →
        parseJsonTop data = none ∨ parseJsonTop data = some .null →
        onMessage st true nonce data
          = ({st with waiters := eraseWaiter st.waiters nonce},
             (if nonce = [48] then [Delivery.logged data] else [])
               ++ [.rejected wid (.rawPayload data)])) := by
  refine ⟨?_, ?_, ?_⟩
  · intro st nonce wid data v hw hp hv
    simp [onMessage, hw, parseJsonErrorObject_of_parse data v hp hv]
  · intro st nonce wid e b hw he hb
    simp [onMessage, hw, parseJsonErrorObject_payload e b he hb]
  · intro st nonce wid data hw hp
    simp [onMessage, hw, parseJsonErrorObject_none data hp]

/-- C7 witness: concrete instances of the three clauses of the amended
claim — payload `42` (JSON, but no fields: `undefined` twice), the
canonical payload with `e = bad`, `b = at foo`, and the non-JSON payload
`bad` (raw rejection). -/
theorem C7_error_frame_rejection_amended_witness :
    onMessage ⟨[([97, 98, 99], 5)], .running, [], none⟩ true [97, 98, 99] [52, 50]
      = (⟨[], .running, [], none⟩, [.rejected 5 (.compositorError none none)])
    ∧ onMessage ⟨[([97, 98, 99], 5)], .running, [], none⟩ true [97, 98, 99]
        (jsonErrorPayload [98, 97, 100] [97, 116, 32, 102, 111, 111])
      = (⟨[], .running, [], none⟩,
         [.rejected 5 (.compositorError (some (.str [98, 97, 100]))
            (some (.str [97, 116, 32, 102, 111, 111])))])
    ∧ onMessage ⟨[([97, 98, 99], 5)], .running, [], none⟩ true [97, 98, 99] [98, 97, 100]
      = (⟨[], .running, [], none⟩, [.rejected 5 (.rawPayload [98, 97, 100])]) := by
  refine ⟨?_, ?_, ?_⟩
  · have h := C7_error_frame_rejection_amended.1 ⟨[([97, 98, 99], 5)], .running, [], none⟩
      [97, 98, 99] 5 [52, 50] (.num [52, 50]) rfl rfl (fun hh => Json.noConfusion hh)
    rw [h]
    rfl
  · have h := C7_error_frame_rejection_amended.2.1 ⟨[([97, 98, 99], 5)], .running, [], none⟩
      [97, 98, 99] 5 [98, 97, 100] [97, 116, 32, 102, 111, 111] rfl (by decide) (by decide)
    rw [h]
    rfl
  · have h := C7_error_frame_rejection_amended.2.2 ⟨[([97, 98, 99], 5)], .running, [], none⟩
      [97, 98, 99] 5 [98, 97, 100] rfl (Or.inl rfl)
    rw [h]
    rfl

/-- C9 counterexample: a frame with the reserved nonce `"0"` does touch
the registry when a waiter happens to be registered under the key `"0"`:
it is resolved and removed, because the source logs nonce-`"0"` frames
but does not exclude them from the waiter lookup. -/
theorem C9_nonce_zero_cx :
    (onMessage ⟨[([48], 7)], .running, [], none⟩ false [48] [104, 105]).1.waiters = []
    ∧ Delivery.resolved 7 [104, 105]
        ∈ (onMessage ⟨[([48], 7)], .running, [], none⟩ false [48] [104, 105]).2 := by
  refine ⟨rfl, ?_⟩
  rw [show (onMessage ⟨[([48], 7)], .running, [], none⟩ false [48] [104, 105]).2
      = [Delivery.logged [104, 105], Delivery.resolved 7 [104, 105]] from rfl]
  exact List.mem_cons_of_mem _ (List.mem_cons_self _ _)

/-- C9 amended: a frame with nonce `"0"` emits exactly one verbose
`compositor` log entry with the payload and leaves the state unchanged,
provided no waiter is registered under the key `"0"` (the nonce source
never hands out the reserved `"0"`). -/
theorem C9_nonce_zero_amended (st : SysState) (isError : Bool) (data : Bytes)
    (h : lookupWaiter st.waiters [48] = none) :
    onMessage st isError [48] data = (st, [.logged data]) := by
  simp [onMessage, h]

/-- C9 witness: a state with one waiter under nonce `abc` is untouched by
a nonce-`"0"` diagnostic frame. -/
theorem C9_nonce_zero_amended_witness :
    onMessage ⟨[([97, 98, 99], 5)], .running, [], none⟩ false [48] [104, 105]
      = (⟨[([97, 98, 99], 5)], .running, [], none⟩, [.logged [104, 105]]) :=
  C9_nonce_zero_amended ⟨[([97, 98, 99], 5)], .running, [], none⟩ false [104, 105] (by decide)

/-! ## Trace lemmas -/

theorem run_cons (st : SysState) (e : Event) (es : List Event) :
    run st (e :: es)
      = ((run (step st e).1 es).1, (step st e).2 ++ (run (step st e).1 es).2) := rfl

theorem step_preserves_quit (st : SysState) (e : Event)
    (hs : st.status ≠ .running) (hw : st.waiters = []) (he : e.isClosed = false) :
    (step st e).1.status = st.status ∧ (step st e).1.waiters = [] := by
  cases e with
  | exec n w =>
    cases hst : st.status with
    | running => exact absurd hst hs
    | quitWithError s => simp [step, executeCommand, hst, hw]
    | quitWithoutError => simp [step, executeCommand, hst, hw]
  | frame er n d => simp [step, onMessage, hw, lookupWaiter]
  | closed c => simp [Event.isClosed] at he
  | stderrData c => simp [step, hw]
  | doneCall w =>
    cases hst : st.status with
    | running => exact absurd hst hs
    | quitWithError s => simp [step, waitForDone, hst, hw]
    | quitWithoutError => simp [step, waitForDone, hst, hw]

theorem run_preserves_quit (es : List Event) (st : SysState)
    (hs : st.status ≠ .running) (hw : st.waiters = [])
    (he : ∀ e ∈ es, e.isClosed = false) :
    (run st es).1.status = st.status ∧ (run st es).1.waiters = [] := by
  induction es generalizing st with
  | nil => exact ⟨rfl, hw⟩
  | cons e es ih =>
    have h1 := step_preserves_quit st e hs hw (he e (by simp))
    have hs2 : (step st e).1.status ≠ .running := by rw [h1.1]; exact hs
    have h2 := ih (step st e).1 hs2 h1.2 (fun x hx => he x (by simp [hx]))
    rw [run_cons]
    exact ⟨h2.1.trans h1.1, h2.2⟩

/-- C2: once the `close` event has fired, the waiter registry is empty
(each waiter pending at the transition having been rejected with
`Compositor already quit` on a clean exit, or
`Compositor panicked: <stderr>` on a crash), it stays empty across any
further close-free events, and every subsequent `executeCommand` call
fails synchronously — with the already-quit error after a clean exit,
and with a quit message carrying the accumulated stderr after a crash —
without changing the state. -/
theorem C2_close_empties_registry_and_gates (st : SysState) (code : Nat) (es : List Event)
    (he : ∀ e ∈ es, e.isClosed = false) :
    (step st (.closed code)).1.waiters = []
    ∧ (∀ p ∈ st.waiters,
        Delivery.rejected p.2 (if code = 0 then .alreadyQuit else .panicked st.stderrBuf)
          ∈ (step st (.closed code)).2)
    ∧ (run (step st (.closed code)).1 es).1.waiters = []
    ∧ (∀ nonce wid,
        executeCommand (run (step st (.closed code)).1 es).1 nonce wid
          = ((if code = 0 then ExecOutcome.failedAlreadyQuit
              else .failedQuitWithError st.stderrBuf),
             (run (step st (.closed code)).1 es).1)) := by
  have hW : (step st (.closed code)).1.waiters = [] := by
    by_cases hc : code = 0 <;> simp [step, onClose, hc]
  have hS : (step st (.closed code)).1.status
      = (if code = 0 then RunningStatus.quitWithoutError
         else .quitWithError st.stderrBuf) := by
    by_cases hc : code = 0 <;> simp [step, onClose, hc]
  have hne : (step st (.closed code)).1.status ≠ .running := by
    rw [hS]; by_cases hc : code = 0 <;> simp [hc]
  have hrun := run_preserves_quit es (step st (.closed code)).1 hne hW he
  refine ⟨hW, ?_, hrun.2, ?_⟩
  · intro p hp
    by_cases hc : code = 0
    · simp only [step, onClose, hc, if_pos]
      exact List.mem_append_right _
        (List.mem_map_of_mem (fun e => Delivery.rejected e.2 .alreadyQuit) hp)
    · simp only [step, onClose, hc, if_neg, if_false]
      exact List.mem_append_left _
        (List.mem_map_of_mem (fun e => Delivery.rejected e.2 (.panicked st.stderrBuf)) hp)
  · intro nonce wid
    have hst2 := hrun.1.trans hS
    by_cases hc : code = 0
    · rw [executeCommand, hst2]
      simp [hc]
    · rw [executeCommand, hst2]
      simp [hc]

/-- C2 witness: concrete crash (`code 1`, stderr `boom`) with one pending
waiter and one later `executeCommand` event. -/
theorem C2_close_empties_registry_and_gates_witness :
    (step ⟨[([97], 3)], .running, [98, 111, 111, 109], none⟩ (.closed 1)).1.waiters = []
    ∧ Delivery.rejected 3 (.panicked [98, 111, 111, 109])
        ∈ (step ⟨[([97], 3)], .running, [98, 111, 111, 109], none⟩ (.closed 1)).2
    ∧ (run (step ⟨[([97], 3)], .running, [98, 111, 111, 109], none⟩ (.closed 1)).1
          [.exec [99] 4]).1.waiters = []
    ∧ (executeCommand
          (run (step ⟨[([97], 3)], .running, [98, 111, 111, 109], none⟩ (.closed 1)).1
            [.exec [99] 4]).1 [100] 9).1
        = .failedQuitWithError [98, 111, 111, 109] := by
  obtain ⟨h1, h2, h3, h4⟩ :=
    C2_close_empties_registry_and_gates ⟨[([97], 3)], .running, [98, 111, 111, 109], none⟩ 1
      [.exec [99] 4] (by decide)
  refine ⟨h1, ?_, h3, ?_⟩
  · have := h2 ([97], 3) (by decide)
    simpa using this
  · have := h4 [100] 9
    simp only [this]
    decide

/-! ## Counting lemmas for at-most-once delivery -/

theorem countIf_append (p : Delivery → Bool) (a b : List Delivery) :
    countIf p (a ++ b) = countIf p a + countIf p b := by
  induction a with
  | nil => simp [countIf]
  | cons d rest ih => simp [countIf, ih]; omega

theorem regCount_append (a b : List (Bytes × Nat)) (wid : Nat) :
    regCount (a ++ b) wid = regCount a wid + regCount b wid := by
  induction a with
  | nil => simp [regCount]
  | cons x xs ih => simp [regCount, ih]; omega

theorem eraseWaiter_cons (x : Bytes × Nat) (xs : List (Bytes × Nat)) (n : Bytes) :
    eraseWaiter (x :: xs) n
      = if x.1 = n then eraseWaiter xs n else x :: eraseWaiter xs n := by
  by_cases hx : x.1 = n <;> simp [eraseWaiter, List.filter_cons, hx]

theorem regCount_erase_le (l : List (Bytes × Nat)) (n : Bytes) (wid : Nat) :
    regCount (eraseWaiter l n) wid ≤ regCount l wid := by
  induction l with
  | nil => simp [eraseWaiter, regCount]
  | cons x xs ih =>
    rw [eraseWaiter_cons]
    by_cases hx : x.1 = n <;> simp [hx, regCount] <;> omega

theorem lookupWaiter_mem (l : List (Bytes × Nat)) (n : Bytes) (w : Nat)
    (h : lookupWaiter l n = some w) : (n, w) ∈ l := by
  induction l with
  | nil => simp [lookupWaiter] at h
  | cons x xs ih =>
    rw [lookupWaiter] at h
    by_cases hx : x.1 = n
    · rw [if_pos hx] at h
      have hw : x.2 = w := by injection h
      have : x = (n, w) := by
        obtain ⟨a, c⟩ := x
        simp at hx hw
        simp [hx, hw]
      simp [this]
    · rw [if_neg hx] at h
      exact List.mem_cons_of_mem _ (ih h)

theorem regCount_erase_mem (l : List (Bytes × Nat)) (n : Bytes) (w : Nat)
    (hm : (n, w) ∈ l) : regCount (eraseWaiter l n) w + 1 ≤ regCount l w := by
  induction l with
  | nil => simp at hm
  | cons x xs ih =>
    rw [eraseWaiter_cons]
    rcases List.mem_cons.mp hm with hx | hx
    · rw [← hx]
      simp [regCount]
      have := regCount_erase_le xs n w
      omega
    · by_cases hxn : x.1 = n
      · simp [hxn, regCount]
        have := ih hx
        omega
      · simp [hxn, regCount]
        have := ih hx
        omega

theorem regCount_insert_le (l : List (Bytes × Nat)) (n : Bytes) (w wid : Nat) :
    regCount (insertWaiter l n w) wid ≤ (if w = wid then 1 else 0) + regCount l wid := by
  rw [insertWaiter, regCount_append]
  have := regCount_erase_le l n wid
  simp only [regCount]
  omega

theorem countIf_rejected_map (l : List (Bytes × Nat)) (r : RejectReason) (wid : Nat) :
    countIf (delivTo wid) (l.map (fun e => Delivery.rejected e.2 r)) = regCount l wid := by
  induction l with
  | nil => rfl
  | cons x xs ih => simp [countIf, delivTo, regCount, ih]

theorem countIf_done_map_zero (l : List (Bytes × Nat)) (r : RejectReason) (w1 : Nat) :
    countIf (doneDelivTo w1) (l.map (fun e => Delivery.rejected e.2 r)) = 0 := by
  induction l with
  | nil => rfl
  | cons x xs ih => simp [countIf, doneDelivTo, ih]

theorem step_deliv_bound (st : SysState) (e : Event) (wid : Nat) :
    countIf (delivTo wid) (step st e).2 + regCount (step st e).1.waiters wid
      ≤ (if execFor wid e then 1 else 0) + regCount st.waiters wid := by
  cases e with
  | exec n w =>
    cases hst : st.status with
    | running =>
      have h := regCount_insert_le st.waiters n w wid
      simp only [step, executeCommand, hst, countIf, execFor]
      by_cases hw : w = wid <;> simp [hw] at h ⊢ <;> omega
    | quitWithError s => simp [step, executeCommand, hst, countIf]
    | quitWithoutError => simp [step, executeCommand, hst, countIf]
  | frame er n d =>
    cases hl : lookupWaiter st.waiters n with
    | none =>
      simp only [step, onMessage, hl, execFor]
      by_cases h48 : n = [48] <;> simp [h48, countIf, delivTo]
    | some w =>
      have hmem := lookupWaiter_mem _ _ _ hl
      have hbound : ∀ d1 : Delivery, delivTo wid d1 = decide (w = wid) →
          countIf (delivTo wid)
              ((if n = [48] then [Delivery.logged d] else []) ++ [d1])
            + regCount (eraseWaiter st.waiters n) wid
          ≤ regCount st.waiters wid := by
        intro d1 hd1
        have hlog : countIf (delivTo wid) (if n = [48] then [Delivery.logged d] else []) = 0 := by
          by_cases h48 : n = [48] <;> simp [h48, countIf, delivTo]
        rw [countIf_append, hlog]
        simp only [countIf, hd1]
        by_cases hw : w = wid
        · subst hw
          have h2 := regCount_erase_mem st.waiters n w hmem
          have h3 : (if decide (w = w) = true then 1 else 0) = 1 := by simp
          rw [h3]
          omega
        · have h2 := regCount_erase_le st.waiters n wid
          have h3 : (if decide (w = wid) = true then 1 else 0) = 0 := by simp [hw]
          rw [h3]
          omega
      cases er with
      | false =>
        have := hbound (.resolved w d) (by simp [delivTo])
        simpa [step, onMessage, hl, execFor] using this
      | true =>
        cases hp : parseJsonErrorObject d with
        | none =>
          have := hbound (.rejected w (.rawPayload d)) (by simp [delivTo])
          simpa [step, onMessage, hl, hp, execFor] using this
        | some eb =>
          obtain ⟨e1, b1⟩ := eb
          have := hbound (.rejected w (.compositorError e1 b1)) (by simp [delivTo])
          simpa [step, onMessage, hl, hp, execFor] using this
  | closed c =>
    by_cases hc : c = 0
    · cases hd : st.doneWaiter <;>
        simp [step, onClose, hc, hd, countIf_append, countIf, delivTo,
          countIf_rejected_map, regCount, execFor]
    · cases hd : st.doneWaiter <;>
        simp [step, onClose, hc, hd, countIf_append, countIf, delivTo,
          countIf_rejected_map, regCount, execFor]
  | stderrData c => simp [step, countIf, execFor]
  | doneCall w =>
    cases hst : st.status <;>
      simp [step, waitForDone, hst, countIf, delivTo, execFor]

theorem run_deliv_bound (es : List Event) (st : SysState) (wid : Nat) :
    countIf (delivTo wid) (run st es).2 + regCount (run st es).1.waiters wid
      ≤ execCount es wid + regCount st.waiters wid := by
  induction es generalizing st with
  | nil => simp [run, countIf, execCount]
  | cons e es ih =>
    have h1 := step_deliv_bound st e wid
    have h2 := ih (step st e).1
    rw [run_cons]
    simp only [countIf_append, execCount]
    omega

/-- C5: for every waiter id inserted by at most one `executeCommand`
event, at most one resolution or rejection is delivered to it across any
sequence of frame arrivals (duplicates included) and close events. -/
theorem C5_at_most_one_delivery (es : List Event) (wid : Nat)
    (h : execCount es wid ≤ 1) :
    countIf (delivTo wid) (run initState es).2 ≤ 1 := by
  have hb := run_deliv_bound es initState wid
  rw [show regCount initState.waiters wid = 0 from rfl] at hb
  omega

/-- C5 witness: one insertion under nonce `a`, a matching frame and a
duplicate frame for the same nonce, then a clean close. -/
theorem C5_at_most_one_delivery_witness :
    countIf (delivTo 1)
        (run initState
          [.exec [97] 1, .frame false [97] [1, 2], .frame false [97] [9], .closed 0]).2 ≤ 1 :=
  C5_at_most_one_delivery _ 1 (by decide)

/-! ## Claim theorems: waitForDone -/

/-- C8: `waitForDone` called after a clean exit rejects (rather than
resolves) with the already-quit error; called after a crash it rejects
with the stored stderr; called while running it installs the handle,
which a later clean close resolves and a later crash rejects with
`Compositor panicked: <stderr>`. -/
theorem C8_wait_for_done_behavior :
    (∀ (st : SysState) (wid : Nat), st.status = .quitWithoutError →
        waitForDone st wid = (st, [.rejectedDone wid .alreadyQuit]))
    ∧ (∀ (st : SysState) (wid : Nat) (e : Bytes), st.status = .quitWithError e →
        waitForDone st wid = (st, [.rejectedDone wid (.alreadyQuitWithError e)]))
    ∧ (∀ (st : SysState) (wid : Nat), st.status = .running →
        (waitForDone st wid).2 = []
        ∧ (waitForDone st wid).1.doneWaiter = some wid
        ∧ Delivery.resolvedDone wid ∈ (onClose (waitForDone st wid).1 0).2
        ∧ (∀ c, c ≠ 0 →
            Delivery.rejectedDone wid (.panicked (waitForDone st wid).1.stderrBuf)
              ∈ (onClose (waitForDone st wid).1 c).2)) := by
  refine ⟨?_, ?_, ?_⟩
  · intro st wid h
    simp [waitForDone, h]
  · intro st wid e h
    simp [waitForDone, h]
  · intro st wid h
    refine ⟨by simp [waitForDone, h], by simp [waitForDone, h], ?_, ?_⟩
    · simp [waitForDone, h, onClose]
    · intro c hc
      simp [waitForDone, h, onClose, hc]

/-- C8 witness: the three clauses at concrete states (`stderr = boom`). -/
theorem C8_wait_for_done_behavior_witness :
    waitForDone ⟨[], .quitWithoutError, [], none⟩ 3
      = (⟨[], .quitWithoutError, [], none⟩, [.rejectedDone 3 .alreadyQuit])
    ∧ waitForDone ⟨[], .quitWithError [98, 111, 111, 109], [98, 111, 111, 109], none⟩ 3
      = (⟨[], .quitWithError [98, 111, 111, 109], [98, 111, 111, 109], none⟩,
         [.rejectedDone 3 (.alreadyQuitWithError [98, 111, 111, 109])])
    ∧ Delivery.resolvedDone 3
        ∈ (onClose (waitForDone ⟨[], .running, [], none⟩ 3).1 0).2
    ∧ Delivery.rejectedDone 3
          (.panicked (waitForDone ⟨[], .running, [98, 111, 111, 109], none⟩ 3).1.stderrBuf)
        ∈ (onClose (waitForDone ⟨[], .running, [98, 111, 111, 109], none⟩ 3).1 1).2 := by
  refine ⟨?_, ?_, ?_, ?_⟩
  · exact C8_wait_for_done_behavior.1 _ 3 rfl
  · exact C8_wait_for_done_behavior.2.1 _ 3 [98, 111, 111, 109] rfl
  · exact (C8_wait_for_done_behavior.2.2 _ 3 rfl).2.2.1
  · exact (C8_wait_for_done_behavior.2.2 ⟨[], .running, [98, 111, 111, 109], none⟩ 3 rfl).2.2.2 1
      (by decide)

/-! ## Done-waiter exclusivity -/

theorem step_done_safe (st : SysState) (e : Event) (w1 : Nat)
    (hd : st.doneWaiter ≠ some w1) (he : e ≠ .doneCall w1) :
    countIf (doneDelivTo w1) (step st e).2 = 0 ∧ (step st e).1.doneWaiter ≠ some w1 := by
  cases e with
  | exec n w =>
    cases hst : st.status <;> simp [step, executeCommand, hst, countIf, hd]
  | frame er n d =>
    cases hl : lookupWaiter st.waiters n with
    | none =>
      simp only [step, onMessage, hl]
      by_cases h48 : n = [48] <;> simp [h48, countIf, doneDelivTo, hd]
    | some w =>
      have hlog : countIf (doneDelivTo w1) (if n = [48] then [Delivery.logged d] else []) = 0 := by
        by_cases h48 : n = [48] <;> simp [h48, countIf, doneDelivTo]
      cases er with
      | false =>
        simp only [step, onMessage, hl]
        simp [countIf_append, hlog, countIf, doneDelivTo, hd]
      | true =>
        cases hp : parseJsonErrorObject d with
        | none =>
          simp only [step, onMessage, hl, hp]
          simp [countIf_append, hlog, countIf, doneDelivTo, hd]
        | some eb =>
          obtain ⟨e1, b1⟩ := eb
          simp only [step, onMessage, hl, hp]
          simp [countIf_append, hlog, countIf, doneDelivTo, hd]
  | closed c =>
    have hdone : countIf (doneDelivTo w1)
        (match st.doneWaiter with
          | some w => [Delivery.resolvedDone w]
          | none => []) = 0 := by
      cases hdw : st.doneWaiter with
      | none => simp [countIf]
      | some w =>
        have : w ≠ w1 := fun hh => hd (by rw [hdw, hh])
        simp [countIf, doneDelivTo, this]
    have hdone2 : ∀ r : RejectReason, countIf (doneDelivTo w1)
        (match st.doneWaiter with
          | some w => [Delivery.rejectedDone w r]
          | none => []) = 0 := by
      intro r
      cases hdw : st.doneWaiter with
      | none => simp [countIf]
      | some w =>
        have : w ≠ w1 := fun hh => hd (by rw [hdw, hh])
        simp [countIf, doneDelivTo, this]
    by_cases hc : c = 0
    · simp [step, onClose, hc, countIf_append, hdone, countIf_done_map_zero, hd]
    · simp [step, onClose, hc, countIf_append, hdone2, countIf_done_map_zero, hd]
  | stderrData c => simp [step, countIf, hd]
  | doneCall w =>
    have hwne : w ≠ w1 := fun hh => he (by rw [hh])
    cases hst : st.status <;>
      simp [step, waitForDone, hst, countIf, doneDelivTo, hd, hwne]

theorem run_done_safe (es : List Event) (st : SysState) (w1 : Nat)
    (hd : st.doneWaiter ≠ some w1) (he : ∀ e ∈ es, e ≠ .doneCall w1) :
    countIf (doneDelivTo w1) (run st es).2 = 0 ∧ (run st es).1.doneWaiter ≠ some w1 := by
  induction es generalizing st with
  | nil => exact ⟨rfl, hd⟩
  | cons e es ih =>
    have h1 := step_done_safe st e w1 hd (he e (by simp))
    have h2 := ih (step st e).1 h1.2 (fun x hx => he x (by simp [hx]))
    rw [run_cons]
    rw [countIf_append, h1.1, h2.1]
    exact ⟨rfl, h2.2⟩

/-- C10: a second `waitForDone` call while still running overwrites the
single stored resolve/reject pair: afterwards the stored handle is the
second caller's, the close event settles only that second promise, and no
later event (absent another `waitForDone` from the first caller) ever
delivers a settlement to the first caller's promise. -/
theorem C10_second_wait_overwrites (st : SysState) (w1 w2 : Nat) (es : List Event)
    (hs : st.status = .running) (hne : w1 ≠ w2)
    (he : ∀ e ∈ es, e ≠ .doneCall w1) :
    (waitForDone (waitForDone st w1).1 w2).1.doneWaiter = some w2
    ∧ (∀ code,
        (if code = 0 then Delivery.resolvedDone w2
         else Delivery.rejectedDone w2
            (.panicked (waitForDone (waitForDone st w1).1 w2).1.stderrBuf))
          ∈ (onClose (waitForDone (waitForDone st w1).1 w2).1 code).2)
    ∧ countIf (doneDelivTo w1) (run (waitForDone (waitForDone st w1).1 w2).1 es).2 = 0 := by
  have hst2 : (waitForDone (waitForDone st w1).1 w2).1
      = {st with doneWaiter := some w2} := by
    simp [waitForDone, hs]
  refine ⟨by rw [hst2], ?_, ?_⟩
  · intro code
    by_cases hc : code = 0 <;> simp [hst2, onClose, hc]
  · have hd : (waitForDone (waitForDone st w1).1 w2).1.doneWaiter ≠ some w1 := by
      rw [hst2]
      simp
      exact fun hh => hne hh.symm
    exact (run_done_safe es _ w1 hd he).1

/-- C10 witness: two `waitForDone` calls then a clean close; the stored
handle is the second caller's and the first caller's promise receives no
settlement. -/
theorem C10_second_wait_overwrites_witness :
    (waitForDone (waitForDone initState 1).1 2).1.doneWaiter = some 2
    ∧ Delivery.resolvedDone 2 ∈ (onClose (waitForDone (waitForDone initState 1).1 2).1 0).2
    ∧ countIf (doneDelivTo 1) (run (waitForDone (waitForDone initState 1).1 2).1 [.closed 0]).2
        = 0 := by
  obtain ⟨h1, h2, h3⟩ :=
    C10_second_wait_overwrites initState 1 2 [.closed 0] rfl (by decide) (by decide)
  exact ⟨h1, by simpa using h2 0, h3⟩

/-- C6 witness: nonce `abc`, payload bytes `0xff 0x00 0x66` (not valid
UTF-8), resolved byte-for-byte. -/
theorem C6_success_payload_roundtrip_witness :
    onStdoutData ⟨[([97, 98, 99], 5)], .running, [], none⟩ initStream
        (mkSuccessFrame [97, 98, 99] [255, 0, 102])
      = some (⟨[], .running, [], none⟩, initStream, [.resolved 5 [255, 0, 102]]) := by
  have h := C6_success_payload_roundtrip [97, 98, 99] [255, 0, 102]
    ⟨[([97, 98, 99], 5)], .running, [], none⟩ 5 (by decide) (by decide)
  rw [h]
  rfl
